import Mathlib

/-!
A verification development for the `ai-codereviewer` GitHub Action
(`src/index.ts`, the authoritative source file).  The TypeScript source is
shallowly embedded: pure functions become Lean functions, the sequential
side-effecting `main` becomes a pure function from its inputs and an
AI-backend oracle to a trace of the side effects it performs, and thrown
JavaScript exceptions become `Except` errors.  The GitHub platform API
(fetching PR metadata, posting comments/reviews) is assumed to succeed;
the AI backend is modelled as an oracle indexed by call order.
-/

namespace CodeReviewer

/-! ## JavaScript string primitives

Character-list models of the JavaScript string operations the source uses.
`jsToLower` covers ASCII letters plus `Ã` (the only non-ASCII uppercase
letter that can affect the Portuguese exemption keywords). -/

/-- JS `String.prototype.toLowerCase`, restricted to ASCII letters and `Ã`. -/
def jsToLower (c : Char) : Char :=
  if 'A' ≤ c ∧ c ≤ 'Z' then Char.ofNat (c.toNat + 32)
  else if c = 'Ã' then 'ã' else c

/-- Lower-case every character of a string (model of JS `toLowerCase`). -/
def strToLower (s : String) : String := String.mk (s.toList.map jsToLower)

/-- `charsStart sub cs` is true when `cs` begins with `sub`. -/
def charsStart : List Char → List Char → Bool
  | [], _ => true
  | _ :: _, [] => false
  | a :: as, b :: bs => a == b && charsStart as bs

/-- `charsContain sub cs` is true when `sub` occurs contiguously in `cs`. -/
def charsContain (sub : List Char) : List Char → Bool
  | [] => sub.isEmpty
  | c :: cs => charsStart sub (c :: cs) || charsContain sub cs

/-- JS `s.includes(sub)`. -/
def strContains (s sub : String) : Bool := charsContain sub.toList s.toList

/-- JS `String.prototype.trim` (leading/trailing whitespace removed;
whitespace is modelled by `Char.isWhitespace`, which covers the space,
tab, newline and carriage-return characters that occur in practice). -/
def jsTrim (s : String) : String :=
  String.mk (((s.toList.dropWhile Char.isWhitespace).reverse.dropWhile
    Char.isWhitespace).reverse)

/-- JS `s.startsWith(pre)`. -/
def strStartsWith (s pre : String) : Bool := charsStart pre.toList s.toList

/-- JS `s.endsWith(suf)`. -/
def strEndsWith (s suf : String) : Bool :=
  charsStart suf.toList.reverse s.toList.reverse

/-- Split a character list at a separator character (the list analogue of
JS `s.split(sep)`; splitting the empty string yields `[""]`). -/
def splitOnCharAux (sep : Char) : List Char → List Char → List String
  | [], acc => [String.mk acc.reverse]
  | c :: cs, acc =>
    if c == sep then String.mk acc.reverse :: splitOnCharAux sep cs []
    else splitOnCharAux sep cs (c :: acc)

/-- JS `s.split(sep)` for a single-character separator. -/
def splitOnChar (sep : Char) (s : String) : List String :=
  splitOnCharAux sep s.toList []

/-- Index of the last `'.'` in a character list, if any. -/
def lastDotIdx : List Char → Option Nat
  | [] => none
  | c :: cs =>
    match lastDotIdx cs with
    | some i => some (i + 1)
    | none => if c == '.' then some 0 else none

/-- JS `filename.slice(filename.lastIndexOf('.'))`: the suffix starting at
the last dot; when there is no dot, `lastIndexOf` is `-1` and `slice(-1)`
yields the final character (or `""` for the empty string). -/
def jsExtSlice (filename : String) : String :=
  let cs := filename.toList
  match lastDotIdx cs with
  | some i => String.mk (cs.drop i)
  | none => String.mk (cs.drop (cs.length - 1))

/-- JS `s.replace(pat, rep)` for a plain (unanchored, non-global) pattern:
replace the first occurrence of `pat`, or leave `s` unchanged. -/
def replaceFirstAux (pat rep : List Char) : List Char → List Char
  | [] => []
  | c :: cs =>
    if charsStart pat (c :: cs) then rep ++ (c :: cs).drop pat.length
    else c :: replaceFirstAux pat rep cs

/-- String wrapper for `replaceFirstAux`. -/
def replaceFirst (s pat rep : String) : String :=
  String.mk (replaceFirstAux pat.toList rep.toList s.toList)

/-- JS `s.replace(/suf$/, rep)` for a literal end-anchored pattern. -/
def replaceSuffix (s suf rep : String) : String :=
  if strEndsWith s suf then
    String.mk (s.toList.take (s.toList.length - suf.toList.length)) ++ rep
  else s

/-- JS `file.replace(/\.[^/.]+$/, '')`: strip a final extension — a dot
followed by one or more characters none of which is `/` or `.`. -/
def stripExt (s : String) : String :=
  let cs := s.toList
  match lastDotIdx cs with
  | none => s
  | some i =>
    let tail := cs.drop (i + 1)
    if tail ≠ [] ∧ tail.all (fun c => c ≠ '/' ∧ c ≠ '.') then
      String.mk (cs.take i)
    else s

/-- JS `Number(s)` restricted to the inputs this program produces: strings
of decimal digits map to their value (`Number("") = 0` matches JS); every
other string maps to `none`, standing for `NaN` or a non-natural number. -/
def jsNumber (s : String) : Option Nat :=
  if s.toList.all Char.isDigit then
    some (s.toList.foldl (fun a c => a * 10 + (c.toNat - '0'.toNat)) 0)
  else none

/-! ## A model of `minimatch`

The source matches file paths against glob patterns with `minimatch`
(default options).  The patterns used contain only literal characters, the
in-segment wildcard `*` and the globstar segment `**`, so the model covers
exactly those constructs, including minimatch's default dot-file rules:
a segment pattern starting with `*` does not match a segment starting with
`.`, and `**` does not swallow segments starting with `.`. -/

/-- The `*` wildcard loop: try the rest of the segment pattern
(`mRest`) against every suffix of the remaining characters. -/
def matchStar (mRest : List Char → Bool) : List Char → Bool
  | [] => mRest []
  | c :: fs => mRest (c :: fs) || matchStar mRest fs

/-- In-segment glob matching: `*` matches any run of characters. -/
def matchSeg : List Char → List Char → Bool
  | [], fs => fs.isEmpty
  | '*' :: ps, fs => matchStar (matchSeg ps) fs
  | _ :: _, [] => false
  | p :: ps, c :: fs => p == c && matchSeg ps fs

/-- Segment matching with minimatch's default dot-file rule. -/
def matchSegDot (pat file : List Char) : Bool :=
  match pat, file with
  | '*' :: _, '.' :: _ => false
  | _, _ => matchSeg pat file

/-- The globstar scan: try the rest of the pattern (`mRest`) at each
path suffix, refusing to swallow a segment that starts with a dot. -/
def matchGSAux (mRest : List String → Bool) : List String → Bool
  | [] => false
  | f :: fs => mRest (f :: fs) || (!strStartsWith f "." && matchGSAux mRest fs)

/-- `matchOne pat file` follows minimatch's `matchOne` over pattern and
path segment lists: literal/`*` segments must match pairwise, a trailing
`**` swallows all remaining non-dot segments, an inner `**` tries every
split, a path may end in one extra empty segment (trailing slash), and a
leftover pattern with an exhausted path fails (`partial = false`). -/
def matchOne : List String → List String → Bool
  | [], [] => true
  | [], f :: fs => fs.isEmpty && f == ""
  | _ :: _, [] => false
  | "**" :: ps, f :: fs =>
    if ps.isEmpty then (f :: fs).all (fun s => !strStartsWith s ".")
    else matchGSAux (matchOne ps) (f :: fs)
  | p :: ps, f :: fs => matchSegDot p.toList f.toList && matchOne ps fs

/-- `minimatch(path, pattern)` with default options, for the pattern
subset used by the source. -/
def mmatch (path pattern : String) : Bool :=
  matchOne (splitOnChar '/' pattern) (splitOnChar '/' path)

/-! ## Constants from the source -/

/-- `TEST_PATTERNS` from the source, verbatim. -/
def TEST_PATTERNS : List String := [
  "**/test/**",
  "**/tests/**",
  "**/*test*",
  "**/*Test*",
  "**/*spec*",
  "**/*Spec*",
  "**/test_*.py",
  "**/*_test.py",
  "**/tests.py",
  "**/conftest.py",
  "**/*.test.ts",
  "**/*.test.js",
  "**/*.spec.ts",
  "**/*.spec.js",
  "**/__tests__/**",
  "**/testing/**",
  "**/pytest/**",
  "**/unittest/**"
]

/-- `EXEMPTION_KEYWORDS` from the source, verbatim. -/
def EXEMPTION_KEYWORDS : List String := [
  "no tests needed",
  "test exempt",
  "skip tests",
  "sem necessidade de teste",
  "não requer teste"
]

/-- `testableExtensions` from `needsTests`, verbatim. -/
def testableExtensions : List String :=
  [".py", ".js", ".ts", ".jsx", ".tsx", ".vue", ".rb", ".php", ".java",
   ".go", ".cs", ".cpp", ".rs"]

/-- `excludePatterns` from `needsTests` (the config/boilerplate deny
list), verbatim. -/
def excludePatterns : List String :=
  [".config.", ".conf.", ".d.ts", "settings.py", "urls.py", "wsgi.py",
   "asgi.py", "manage.py"]

/-! ## The test-requirement classifier -/

/-- `needsTests` from the source, on the file's destination path
(the source reads `file.to || ''`; the `DiffFile` wrapper below applies
that defaulting). -/
def needsTests (filename : String) : Bool :=
  if TEST_PATTERNS.any (fun pattern => mmatch filename pattern) then false
  else
    let ext := jsExtSlice filename
    testableExtensions.contains ext &&
      !(excludePatterns.any (fun pattern => strContains filename pattern))

/-! ## Diff data model

`parse-diff` output, restricted to the fields the source reads.  A chunk's
content and change lines feed only the AI prompt; since the AI backend is
modelled as an oracle indexed by call order, the prompt text itself is
not materialised. -/

/-- One hunk of a parsed diff (`Chunk` from `parse-diff`). -/
structure Chunk where
  content : String
  deriving DecidableEq, Repr

/-- One changed file of a parsed diff (`File` from `parse-diff`):
`to? = none` models an absent `to` field; `some ""` is likewise falsy
in the JS truthiness tests the source performs. -/
structure DiffFile where
  to? : Option String
  chunks : List Chunk
  deriving DecidableEq, Repr

/-- JS truthiness of `file.to` (`undefined` and `""` are falsy). -/
def jsTruthyTo (f : DiffFile) : Bool :=
  match f.to? with
  | none => false
  | some s => s ≠ ""

/-- `file.to || ''` / `file.to ?? ""`. -/
def toOrEmpty (f : DiffFile) : String := f.to?.getD ""

/-- `needsTests(file)` as called on a `File` value (`file.to || ''`). -/
def needsTestsFile (f : DiffFile) : Bool := needsTests (toOrEmpty f)

/-! ## Test analysis -/

/-- `TestAnalysisResult` from the source. -/
structure TestAnalysisResult where
  hasTests : Bool
  missingTests : List String
  affectedFiles : List String
  deriving DecidableEq, Repr

/-- The candidate companion-test fragments built inside `analyzeTests`
for one affected file (`possibleTestPatterns`), verbatim: note that the
two Django-specific `replace` calls act on the extension-stripped base
name, which can no longer end in `.py`. -/
def possibleTestPatterns (file : String) : List String :=
  let baseNameWithoutExt := stripExt file
  [ baseNameWithoutExt ++ "_test",
    "test_" ++ baseNameWithoutExt,
    baseNameWithoutExt ++ ".test",
    baseNameWithoutExt ++ ".spec",
    replaceFirst baseNameWithoutExt "src/" "test/",
    replaceFirst baseNameWithoutExt "src/" "tests/",
    replaceFirst baseNameWithoutExt "app/" "tests/",
    replaceSuffix baseNameWithoutExt "views.py" "tests.py",
    replaceSuffix baseNameWithoutExt "models.py" "tests.py" ]

/-- The test-file recognizer used for `testFiles` in `analyzeTests`:
a strict pattern match, or `'test'` anywhere in the lower-cased path. -/
def isTestFilePath (p : String) : Bool :=
  TEST_PATTERNS.any (fun pattern => mmatch p pattern) ||
    strContains (strToLower p) "test"

/-- `analyzeTests` from the source (its `prDetails` parameter is unused
there and omitted here). -/
def analyzeTests (parsedDiff : List DiffFile) : TestAnalysisResult :=
  let affectedFiles :=
    (parsedDiff.filter (fun f => jsTruthyTo f && needsTestsFile f)).map toOrEmpty
  let testFiles :=
    (parsedDiff.filter (fun f => jsTruthyTo f && isTestFilePath (toOrEmpty f))).map toOrEmpty
  let missingTests := affectedFiles.filter (fun file =>
    !(testFiles.any (fun testFile =>
      (possibleTestPatterns file).any (fun pattern =>
        strContains (strToLower testFile) (strToLower pattern)))))
  { hasTests := !testFiles.isEmpty
    missingTests := missingTests
    affectedFiles := affectedFiles }

/-! ## Exemption detection -/

/-- `hasTestExemption` from the source. -/
def hasTestExemption (description : String) : Bool :=
  EXEMPTION_KEYWORDS.any (fun keyword =>
    strContains (strToLower description) (strToLower keyword))

/-- The fixed fallback sentence used when no detailed reason is produced. -/
def exemptionFallbackReason : String :=
  "Isenção de testes solicitada, mas nenhuma justificativa detalhada foi fornecida."

/-- `extractTestExemptionReason` from the source, over the AI backend's
answer to the reason prompt: `none` models a call that raised; an empty
string is falsy (`if (!response) return null`); otherwise the trimmed
text is returned. -/
def extractTestExemptionReason (resp : Option String) : Option String :=
  match resp with
  | none => none
  | some r => if r = "" then none else some (jsTrim r)

/-- `getTestExemptionDetails` from the source: the boolean comes from the
keyword scan only; the reason falls back to the fixed sentence when the
detailed reason is `null` or empty (`detailedReason || '...'`). -/
def getTestExemptionDetails (description : String) (resp : Option String) :
    Bool × String :=
  if hasTestExemption description then
    match extractTestExemptionReason resp with
    | some r => if r = "" then (true, exemptionFallbackReason) else (true, r)
    | none => (true, exemptionFallbackReason)
  else (false, "")

/-! ## The AI review orchestrator -/

/-- The outcome of one AI backend call for a hunk-review prompt, as seen
by `getAIResponse`: the call raises; or it returns text that fails
`JSON.parse`; or the text parses but has no `reviews` field (so the
result is `undefined`, which is falsy); or it parses to a `reviews`
array of `(lineNumber, reviewComment)` pairs. -/
inductive AIResult where
  | raise
  | notJson
  | noReviews
  | reviews (rs : List (String × String))
  deriving DecidableEq, Repr

/-- `getAIResponse` from the source: the provider call and `JSON.parse`
run inside a `try` whose `catch` logs and RETHROWS, so a raised call or
unparsable text propagates to the caller; only a parsed object without a
`reviews` array comes back as a falsy non-result. -/
def getAIResponse : AIResult → Except Unit (Option (List (String × String)))
  | .raise => .error ()
  | .notJson => .error ()
  | .noReviews => .ok none
  | .reviews rs => .ok (some rs)

/-- A review comment as accumulated by `analyzeCode`
(`{body, path, line}`); `line` is `Number(lineNumber)` under `jsNumber`. -/
structure ReviewComment where
  body : String
  path : String
  line : Option Nat
  deriving DecidableEq, Repr

/-- `createComment` from the source: each accepted pair becomes one
comment anchored to `file.to`; a falsy `file.to` contributes nothing. -/
def createComment (file : DiffFile) (aiResponses : List (String × String)) :
    List ReviewComment :=
  aiResponses.flatMap (fun r =>
    if !jsTruthyTo file then []
    else [{ body := r.2, path := toOrEmpty file, line := jsNumber r.1 }])

/-- The per-hunk loop of `analyzeCode` for one file: each hunk costs one
oracle call; a thrown `getAIResponse` aborts the whole loop (comments
collected so far are lost with the rejected promise); a falsy response
contributes nothing and the loop continues.  Returns the number of calls
consumed alongside the outcome. -/
def runChunks (oracle : Nat → AIResult) (file : DiffFile) :
    List Chunk → Nat → Nat × Except Unit (List ReviewComment)
  | [], k => (k, .ok [])
  | _ :: cs, k =>
    match getAIResponse (oracle k) with
    | .error e => (k + 1, .error e)
    | .ok none => runChunks oracle file cs (k + 1)
    | .ok (some rs) =>
      match runChunks oracle file cs (k + 1) with
      | (k', .error e) => (k', .error e)
      | (k', .ok rest) => (k', .ok (createComment file rs ++ rest))

/-- The file loop of `analyzeCode`, threading the oracle call counter:
deleted files (`to === "/dev/null"`) are skipped. -/
def analyzeCodeFrom (oracle : Nat → AIResult) :
    List DiffFile → Nat → Nat × Except Unit (List ReviewComment)
  | [], k => (k, .ok [])
  | f :: fs, k =>
    if f.to? = some "/dev/null" then analyzeCodeFrom oracle fs k
    else
      match runChunks oracle f f.chunks k with
      | (k', .error e) => (k', .error e)
      | (k', .ok cmts) =>
        match analyzeCodeFrom oracle fs k' with
        | (k'', .error e) => (k'', .error e)
        | (k'', .ok rest) => (k'', .ok (cmts ++ rest))

/-- `analyzeCode` from the source, from a fresh call counter. -/
def analyzeCode (oracle : Nat → AIResult) (parsedDiff : List DiffFile) :
    Nat × Except Unit (List ReviewComment) :=
  analyzeCodeFrom oracle parsedDiff 0

/-! ## Event gate and PR-number resolution -/

/-- `isCodeReviewCommand` from the source. -/
def isCodeReviewCommand (comment : String) : Bool :=
  strStartsWith (jsTrim comment) "/code_review"

/-- The slice of `eventData.issue` that the source reads: the truthiness
of `issue.pull_request` and `issue.number` (real comment payloads always
carry a number). -/
structure IssueData where
  pullRequest : Bool
  number : Nat
  deriving DecidableEq, Repr

/-- The slice of the GitHub event payload the source reads.
`commentBody?` is the body of `eventData.comment` when that field is
present (comment payloads always carry a body string);
`pullRequestNumber?` is `eventData.pull_request.number` when the
`pull_request` field is present. -/
structure EventData where
  commentBody? : Option String
  issue? : Option IssueData
  pullRequestNumber? : Option Nat
  action : String
  deriving DecidableEq, Repr

/-- Truthiness of `eventData.issue?.pull_request`. -/
def eventIssuePR (e : EventData) : Bool :=
  match e.issue? with
  | some i => i.pullRequest
  | none => false

/-- The PR-event actions that trigger processing in `main`. -/
def actionTriggers (a : String) : Bool :=
  a = "opened" || a = "reopened" || a = "synchronize"

/-- The event gate of `main` (`shouldProcessPR`): a comment event is
processed only when it sits on a pull request and its body is a
`/code_review` command; otherwise a `pull_request` event with an
opened/reopened/synchronize action is processed; anything else is not. -/
def shouldProcessPR (e : EventData) : Bool :=
  match e.commentBody? with
  | some body => eventIssuePR e && isCodeReviewCommand body
  | none => e.pullRequestNumber?.isSome && actionTriggers e.action

/-- The pull-number resolution of `getPRDetails`: the `issue.pull_request`
branch wins, then the `pull_request` branch; `none` models the
`throw new Error('Could not determine pull request number')` branch. -/
def getPRNumber (e : EventData) : Option Nat :=
  if eventIssuePR e then e.issue?.map IssueData.number
  else e.pullRequestNumber?

/-! ## The decision composer (`main`)

`main`'s tail after the diff has been fetched and parsed is embedded as a
pure function from the configuration, the parsed diff, the PR
description, the hunk-review oracle and the backend's answer to the
exemption-reason prompt, to a trace of the side effects performed.
Platform API calls (posting comments and reviews) are assumed to succeed;
a webhook delivery failure is caught in the source and cannot change the
trace shape, so only its attempt is recorded. -/

/-- The action configuration inputs the composer reads.  An empty
`webhookUrl` models an unset `WEBHOOK_URL` (falsy). -/
structure Config where
  avaliarTestPr : Bool
  webhookUrl : String
  excludeInput : String
  deriving DecidableEq, Repr

/-- One review posted through `createReviewComment`: the anchored
comments, the event disposition and the optional top-level body. -/
structure PostedReview where
  comments : List ReviewComment
  event : String
  body : Option String
  deriving DecidableEq, Repr

/-- The observable side effects of one run, in order of occurrence:
issue comments posted, whether a webhook POST was attempted, reviews
posted, how many hunk-review backend calls were attempted, whether an
exemption-reason backend call was attempted, and whether the run
aborted with an uncaught error (nonzero exit). -/
structure RunTrace where
  issueComments : List String
  webhookSent : Bool
  reviews : List PostedReview
  reviewAICalls : Nat
  exemptionAICall : Bool
  aborted : Bool
  deriving DecidableEq, Repr

/-- The fixed warning template posted when tests are required, absent and
not exempt, verbatim from the source. -/
def testWarningBody (missingTests : List String) : String :=
  "⚠️ Verificação de Testes\n\n" ++
  "Esta PR contém alterações em arquivos que requerem testes, mas nenhum teste foi encontrado.\n\n" ++
  "Arquivos que precisam de testes:\n" ++
  String.intercalate "\n" (missingTests.map (fun file => "- `" ++ file ++ "`")) ++
  "\n\nPor favor:\n" ++
  "1. Adicione testes apropriados para as alterações realizadas, ou\n" ++
  "2. Inclua uma justificativa no corpo da PR caso os testes não sejam necessários.\n\n" ++
  "Use uma das seguintes palavras-chave na descrição da PR para indicar que não são necessários testes:\n" ++
  "- \"sem necessidade de teste\"\n" ++
  "- \"não requer teste\"\n" ++
  "- \"skip tests\"\n" ++
  "- \"test exempt\"\n" ++
  "- \"no tests needed\""

/-- The plain approval body, verbatim. -/
def plainLGTMBody : String :=
  "✨ **LGTM** - Looks Good To Me!\n\nCódigo revisado e aprovado. Não foram encontrados problemas significativos."

/-- The exemption-annotated approval body, verbatim. -/
def exemptLGTMBody (reason : String) : String :=
  "✨ **LGTM** - Aprovado com exceções.\n\nCódigo revisado e aprovado. Observação sobre a isenção de testes:\n\n" ++ reason

/-- The guard of the warning branch in `main`:
`testAnalysis.affectedFiles.length > 0 && !testAnalysis.hasTests &&
!testExemptionDetails.isExempt`. -/
def warnCond (ta : TestAnalysisResult) (isExempt : Bool) : Bool :=
  !ta.affectedFiles.isEmpty && !ta.hasTests && !isExempt

/-- The approval body chosen in `main`: exemption-annotated when tests
are required, absent, and exempt; plain LGTM otherwise. -/
def approvalBodyFor (ta : TestAnalysisResult) (ed : Bool × String) : String :=
  if !ta.affectedFiles.isEmpty && !ta.hasTests && ed.1 then
    exemptLGTMBody ed.2
  else plainLGTMBody

/-- The exclude-input filtering applied before `analyzeCode`:
`core.getInput("exclude").split(",").map(trim)` matched with minimatch
against `file.to ?? ""`. -/
def filterExcluded (excludeInput : String) (parsedDiff : List DiffFile) :
    List DiffFile :=
  let pats := (splitOnChar ',' excludeInput).map jsTrim
  parsedDiff.filter (fun file =>
    !(pats.any (fun pattern => mmatch (toOrEmpty file) pattern)))

/-- The tail of `main` from after `parseDiff`: test analysis, exemption
details (whose AI call is attempted exactly when a keyword matched),
the warning comment plus optional webhook, the early return under
`AVALIAR_TEST_PR`, the AI-review phase guarded by `!AVALIAR_TEST_PR`
(whose uncaught failure aborts the run), and the final approval guarded
by the `hasIssues` flag. -/
def mainAfterDiff (cfg : Config) (parsedDiff : List DiffFile)
    (description : String) (oracle : Nat → AIResult)
    (exemptResp : Option String) : RunTrace :=
  let ta := analyzeTests parsedDiff
  let ed := getTestExemptionDetails description exemptResp
  let exemptionAICall := hasTestExemption description
  let warn := warnCond ta ed.1
  let issueComments := if warn then [testWarningBody ta.missingTests] else []
  let webhookSent := warn && cfg.webhookUrl != ""
  if warn && cfg.avaliarTestPr then
    { issueComments := issueComments, webhookSent := webhookSent,
      reviews := [], reviewAICalls := 0,
      exemptionAICall := exemptionAICall, aborted := false }
  else
    let aiPhase :=
      if cfg.avaliarTestPr then (0, Except.ok [])
      else analyzeCode oracle (filterExcluded cfg.excludeInput parsedDiff)
    match aiPhase with
    | (k, .error _) =>
      { issueComments := issueComments, webhookSent := webhookSent,
        reviews := [], reviewAICalls := k,
        exemptionAICall := exemptionAICall, aborted := true }
    | (k, .ok comments) =>
      let commentReviews :=
        if comments.isEmpty then []
        else [{ comments := comments, event := "COMMENT", body := none }]
      let hasIssues := warn || !comments.isEmpty
      if hasIssues then
        { issueComments := issueComments, webhookSent := webhookSent,
          reviews := commentReviews, reviewAICalls := k,
          exemptionAICall := exemptionAICall, aborted := false }
      else
        { issueComments := issueComments, webhookSent := webhookSent,
          reviews := commentReviews ++
            [{ comments := [], event := "APPROVE",
               body := some (approvalBodyFor ta ed) }],
          reviewAICalls := k,
          exemptionAICall := exemptionAICall, aborted := false }

/-- The trace of a run that exits before performing any side effect. -/
def emptyTrace : RunTrace :=
  { issueComments := [], webhookSent := false, reviews := [],
    reviewAICalls := 0, exemptionAICall := false, aborted := false }

/-- `main` end to end: the event gate, the `getPRDetails` pull-number
resolution (whose failure aborts the run before any side effect), the
missing-diff early return, and the composed tail.  `parsedDiff? = none`
models a falsy diff response. -/
def mainRun (cfg : Config) (e : EventData)
    (parsedDiff? : Option (List DiffFile)) (description : String)
    (oracle : Nat → AIResult) (exemptResp : Option String) : RunTrace :=
  if !shouldProcessPR e then emptyTrace
  else if (getPRNumber e).isNone then { emptyTrace with aborted := true }
  else
    match parsedDiff? with
    | none => emptyTrace
    | some parsedDiff => mainAfterDiff cfg parsedDiff description oracle exemptResp

/-! ## Spec-side definition for the classifier claim

The spec describes the classifier with the test-name patterns "matched
case-insensitively"; minimatch's default matching is case-sensitive, so
this reading is kept as a separate definition to compare with
`needsTests`. -/

/-- Follows the spec's words for the test-requirement classifier: the
same fixed glob patterns, but matched case-insensitively (both sides
lower-cased), then the extension allow-list and the fragment deny-list. -/
def specNeedsTestsC5 (path : String) : Bool :=
  if TEST_PATTERNS.any (fun pattern =>
      mmatch (strToLower path) (strToLower pattern)) then false
  else
    testableExtensions.contains (jsExtSlice path) &&
      !(excludePatterns.any (fun pattern => strContains path pattern))

/-! ## Concrete fixtures used by witnesses and counterexamples -/

/-- Evaluate-tests-only configuration (no webhook, no exclude input). -/
def cfgTestsOnly : Config := ⟨true, "", ""⟩

/-- Full-review configuration (no webhook, no exclude input). -/
def cfgRev : Config := ⟨false, "", ""⟩

/-- A diff changing one source file together with its companion test. -/
def diffWithTests : List DiffFile :=
  [⟨some "src/util.ts", [⟨"h1"⟩]⟩, ⟨some "src/util.test.ts", [⟨"h2"⟩]⟩]

/-- A diff changing only `src/util.ts` (needs tests, none present). -/
def diffUtilTs : List DiffFile := [⟨some "src/util.ts", [⟨"h"⟩]⟩]

/-- A diff changing only `src/util.py` (needs tests, none present). -/
def diffUtilPy : List DiffFile := [⟨some "src/util.py", [⟨"h"⟩]⟩]

/-- A diff changing only `contest/utils.py`. -/
def diffContest : List DiffFile := [⟨some "contest/utils.py", [⟨"h"⟩]⟩]

/-- The diff of the Django test-satisfaction scenario. -/
def diffDjango : List DiffFile :=
  [⟨some "app/views.py", [⟨"h1"⟩]⟩, ⟨some "tests/tests.py", [⟨"h2"⟩]⟩]

/-- A two-file diff whose first hunk gets an unparsable AI answer. -/
def diffTwoFiles : List DiffFile :=
  [⟨some "a.py", [⟨"hunk a"⟩]⟩, ⟨some "b.py", [⟨"hunk b"⟩]⟩]

/-- An oracle whose first answer fails `JSON.parse` and whose later
answers carry one review each. -/
def oracleC1 : Nat → AIResult := fun k =>
  if k = 0 then .notJson else .reviews [("3", "needs fix")]

/-- An oracle that always raises. -/
def oracleRaise : Nat → AIResult := fun _ => .raise

/-- An oracle that always answers with an empty reviews array. -/
def oracleEmpty : Nat → AIResult := fun _ => .reviews []

/-- An oracle that always answers with one review at line 12. -/
def oracleOne : Nat → AIResult := fun _ => .reviews [("12", "refatorar")]

/-- The comments `analyzeCode` collects from `diffUtilTs` under
`oracleOne`. -/
def cmtsOne : List ReviewComment := [⟨"refatorar", "src/util.ts", some 12⟩]

/-- A well-formed PR-opened event. -/
def eventOpened : EventData := ⟨none, none, some 7, "opened"⟩

/-- A comment event whose body is not a command. -/
def eventChatter : EventData := ⟨some "hello there", some ⟨true, 5⟩, none, "created"⟩

/-! ## Helper lemmas -/

/-- A character list without a dot has no last-dot index. -/
theorem lastDotIdx_eq_none (cs : List Char) (h : '.' ∉ cs) :
    lastDotIdx cs = none := by
  induction cs with
  | nil => rfl
  | cons c cs ih =>
    have hc : ¬(c == '.') = true := by
      simp only [beq_iff_eq]
      exact fun hc => h (hc ▸ List.mem_cons_self c cs)
    have hcs : '.' ∉ cs := fun hm => h (List.mem_cons_of_mem c hm)
    simp [lastDotIdx, ih hcs, hc]

/-- Every extension in the allow-list is at least three characters. -/
theorem testableExtensions_length (e : String) (he : e ∈ testableExtensions) :
    3 ≤ e.length := by
  fin_cases he <;> decide

/-- A string of at most one character is in no allow-list entry. -/
theorem contains_ext_false (e : String) (h : e.length ≤ 1) :
    testableExtensions.contains e = false := by
  by_contra hc
  have hm : e ∈ testableExtensions :=
    List.elem_iff.mp (Bool.of_not_eq_false hc)
  exact absurd (testableExtensions_length e hm) (by omega)

/-- With `issue.pull_request` truthy, `getPRDetails`'s first branch
always produces a number. -/
theorem issue_branch_some (e : EventData) (h : eventIssuePR e = true) :
    (e.issue?.map IssueData.number).isSome = true := by
  unfold eventIssuePR at h
  cases hi : e.issue? with
  | none => rw [hi] at h; exact absurd h (by simp)
  | some i => simp

/-! ## Claim theorems -/

/-- C7: for every file whose path contains no `.` character, `needsTests`
returns `false` — the JS `slice(lastIndexOf('.'))` then yields at most the
final character, which is never in the three-character extension
allow-list, so the extension test fails on the non-test branch too. -/
theorem needsTests_no_extension (f : String) (h : '.' ∉ f.toList) :
    needsTests f = false := by
  unfold needsTests
  split
  · rfl
  · have hnone : lastDotIdx f.toList = none := lastDotIdx_eq_none _ h
    have hshort : (jsExtSlice f).length ≤ 1 := by
      have hj : jsExtSlice f = String.mk (f.toList.drop (f.toList.length - 1)) := by
        simp only [jsExtSlice]
        rw [hnone]
      rw [hj]
      show (f.toList.drop (f.toList.length - 1)).length ≤ 1
      rw [List.length_drop]
      omega
    show (testableExtensions.contains (jsExtSlice f) &&
        !(excludePatterns.any fun pattern => strContains f pattern)) = false
    rw [contains_ext_false _ hshort, Bool.false_and]

/-- Witness for C7 at the concrete extensionless path `Makefile`. -/
theorem needsTests_no_extension_wit : needsTests "Makefile" = false :=
  needsTests_no_extension "Makefile" (by decide)

/-- C5 counterexample: `a.TEST.py` matches no test pattern under the
code's case-sensitive minimatch (so `needsTests` is `true`), but matches
`**/*test*` under the spec's case-insensitive reading (so the spec-side
classifier returns `false`). -/
theorem needsTests_case_cex :
    needsTests "a.TEST.py" = true ∧ specNeedsTestsC5 "a.TEST.py" = false :=
  ⟨by decide, by decide⟩

/-- C5 (amended): `needsTests` is `true` exactly when the path matches
none of the fixed glob patterns under minimatch's case-sensitive default
(the name patterns cover only the spellings `test`/`Test`/`spec`/`Spec`),
its extension is in the allow-list, and no deny-list fragment occurs in
the path; in particular a pattern match forces `false`. -/
theorem needsTests_characterisation (p : String) :
    (needsTests p = true ↔
      ((∀ pat ∈ TEST_PATTERNS, mmatch p pat = false) ∧
        jsExtSlice p ∈ testableExtensions ∧
        ∀ frag ∈ excludePatterns, strContains p frag = false)) ∧
    (∀ pat ∈ TEST_PATTERNS, mmatch p pat = true → needsTests p = false) := by
  constructor
  · unfold needsTests
    split
    · next hA =>
      rw [List.any_eq_true] at hA
      obtain ⟨pat, hmem, hpat⟩ := hA
      refine iff_of_false (by simp) ?_
      rintro ⟨hall, -, -⟩
      rw [hall pat hmem] at hpat
      exact Bool.false_ne_true hpat
    · next hA =>
      rw [Bool.not_eq_true, List.any_eq_false] at hA
      simp only [Bool.and_eq_true, Bool.not_eq_true', List.any_eq_false,
        List.elem_iff]
      constructor
      · rintro ⟨hext, hfrag⟩
        exact ⟨fun pat hm => Bool.not_eq_true _ ▸ (by simpa using hA pat hm),
          hext, fun frag hm => by simpa using hfrag frag hm⟩
      · rintro ⟨-, hext, hfrag⟩
        exact ⟨hext, fun frag hm => by simpa using hfrag frag hm⟩
  · intro pat hmem hpat
    unfold needsTests
    have hany : TEST_PATTERNS.any (fun pattern => mmatch p pattern) = true :=
      List.any_eq_true.mpr ⟨pat, hmem, hpat⟩
    simp [hany]

/-- C3: on the diff `{app/views.py, tests/tests.py}`, the code leaves
`app/views.py` in `missingTests`: the Django substitutions
`views.py → tests.py` act on the extension-stripped base name
`app/views`, which cannot end in `.py`, so they never fire — the
candidate list contains `app/views` unchanged in their place, and no
candidate occurs in `tests/tests.py`. -/
theorem django_rule_never_fires :
    (analyzeTests diffDjango).missingTests = ["app/views.py"] ∧
    possibleTestPatterns "app/views.py" =
      ["app/views_test", "test_app/views", "app/views.test", "app/views.spec",
       "app/views", "app/views", "tests/views", "app/views", "app/views"] :=
  ⟨by decide, by decide⟩

/-- C10: whenever the event gate accepts (a `/code_review` comment on a
pull request, or a pull-request event with a triggering action), the
pull-number resolution of `getPRDetails` succeeds — its throw branch is
unreachable. -/
theorem gate_implies_pr_number (e : EventData)
    (h : shouldProcessPR e = true) : (getPRNumber e).isSome = true := by
  unfold shouldProcessPR at h
  unfold getPRNumber
  cases hc : e.commentBody? with
  | some body =>
    rw [hc] at h
    have hpr : eventIssuePR e = true := (Bool.and_eq_true _ _ |>.mp h).1
    rw [if_pos hpr]
    exact issue_branch_some e hpr
  | none =>
    rw [hc] at h
    have hnum : e.pullRequestNumber?.isSome = true :=
      (Bool.and_eq_true _ _ |>.mp h).1
    by_cases hpr : eventIssuePR e = true
    · rw [if_pos hpr]
      exact issue_branch_some e hpr
    · rw [if_neg hpr]
      exact hnum

/-- Witness for C10 at a concrete PR-opened event. -/
theorem gate_implies_pr_number_wit : (getPRNumber eventOpened).isSome = true :=
  gate_implies_pr_number eventOpened (by decide)

/-- C1 counterexample: with an unparsable answer on the first hunk and a
good answer waiting for the second, `analyzeCode` rejects after one call
and the run aborts with no reviews posted — the later hunk's comment is
not collected, contradicting local recovery. -/
theorem aiFailure_aborts_cex :
    (analyzeCode oracleC1 diffTwoFiles).2 = Except.error () ∧
    mainAfterDiff cfgRev diffTwoFiles "skip tests" oracleC1 (some "ok") =
      { issueComments := [], webhookSent := false, reviews := [],
        reviewAICalls := 1, exemptionAICall := true, aborted := true } :=
  ⟨rfl, rfl⟩

/-- C1 (amended): a hunk answer that parses but lacks the `reviews`
structure is recovered locally (no comments, the loop continues), but a
raising call or unparsable text stops the hunk loop with an error, and
such an error makes the run abort with no reviews posted. -/
theorem aiFailure_amended (oracle : Nat → AIResult) (f : DiffFile) (c : Chunk)
    (cs : List Chunk) (k : Nat) (cfg : Config) (d : List DiffFile)
    (desc : String) (ex : Option String)
    (hav : cfg.avaliarTestPr = false) :
    (oracle k = AIResult.noReviews →
      runChunks oracle f (c :: cs) k = runChunks oracle f cs (k + 1)) ∧
    ((oracle k = AIResult.raise ∨ oracle k = AIResult.notJson) →
      runChunks oracle f (c :: cs) k = (k + 1, Except.error ())) ∧
    ((analyzeCode oracle (filterExcluded cfg.excludeInput d)).2 = Except.error () →
      (mainAfterDiff cfg d desc oracle ex).reviews = [] ∧
      (mainAfterDiff cfg d desc oracle ex).aborted = true) := by
  refine ⟨?_, ?_, ?_⟩
  · intro hk
    simp only [runChunks, hk, getAIResponse]
  · rintro (hk | hk) <;> simp only [runChunks, hk, getAIResponse]
  · intro herr
    rcases hres : analyzeCode oracle (filterExcluded cfg.excludeInput d) with ⟨k', res⟩
    rw [hres] at herr
    cases res with
    | ok v => exact absurd herr (by simp)
    | error e =>
      cases e
      constructor <;> simp [mainAfterDiff, hav, hres]

/-- Witness for C1 (amended) on the two-file diff with the unparsable
first answer. -/
theorem aiFailure_amended_wit :
    ((oracleC1 0 = AIResult.raise ∨ oracleC1 0 = AIResult.notJson) →
      runChunks oracleC1 ⟨some "a.py", [⟨"hunk a"⟩]⟩ [⟨"hunk a"⟩] 0 =
        (1, Except.error ())) ∧
    ((analyzeCode oracleC1 (filterExcluded cfgRev.excludeInput diffTwoFiles)).2 =
        Except.error () →
      (mainAfterDiff cfgRev diffTwoFiles "" oracleC1 none).reviews = [] ∧
      (mainAfterDiff cfgRev diffTwoFiles "" oracleC1 none).aborted = true) :=
  ⟨(aiFailure_amended oracleC1 ⟨some "a.py", [⟨"hunk a"⟩]⟩ ⟨"hunk a"⟩ [] 0
      cfgRev diffTwoFiles "" none rfl).2.1,
   (aiFailure_amended oracleC1 ⟨some "a.py", [⟨"hunk a"⟩]⟩ ⟨"hunk a"⟩ [] 0
      cfgRev diffTwoFiles "" none rfl).2.2⟩

/-- C2 counterexample: evaluate-tests-only mode with a satisfied test
check posts an APPROVE review (plain LGTM) — the run does not end
without an approval as the claim states.  The always-raising oracle
doubles as evidence that no AI call is attempted. -/
theorem testsOnlyMode_approves_cex :
    mainAfterDiff cfgTestsOnly diffWithTests "" oracleRaise none =
      { issueComments := [], webhookSent := false,
        reviews := [{ comments := [], event := "APPROVE",
                      body := some plainLGTMBody }],
        reviewAICalls := 0, exemptionAICall := false, aborted := false } :=
  rfl

/-- C2 (amended): with evaluate-tests-only set and the warning condition
false, the AI-review phase is skipped (no backend call), and a single
APPROVE review IS posted with the plain or exemption-annotated body. -/
theorem testsOnlyMode_amended (cfg : Config) (d : List DiffFile)
    (desc : String) (oracle : Nat → AIResult) (ex : Option String)
    (hav : cfg.avaliarTestPr = true)
    (hwarn : warnCond (analyzeTests d) (getTestExemptionDetails desc ex).1 = false) :
    mainAfterDiff cfg d desc oracle ex =
      { issueComments := [], webhookSent := false,
        reviews := [{ comments := [], event := "APPROVE",
                      body := some (approvalBodyFor (analyzeTests d)
                        (getTestExemptionDetails desc ex)) }],
        reviewAICalls := 0,
        exemptionAICall := hasTestExemption desc,
        aborted := false } := by
  simp [mainAfterDiff, hav, hwarn]

/-- Witness for C2 (amended) on the diff that carries its own test. -/
theorem testsOnlyMode_amended_wit :
    mainAfterDiff cfgTestsOnly diffWithTests "" oracleRaise none =
      { issueComments := [], webhookSent := false,
        reviews := [{ comments := [], event := "APPROVE",
                      body := some (approvalBodyFor (analyzeTests diffWithTests)
                        (getTestExemptionDetails "" none)) }],
        reviewAICalls := 0,
        exemptionAICall := hasTestExemption "",
        aborted := false } :=
  testsOnlyMode_amended cfgTestsOnly diffWithTests "" oracleRaise none rfl
    (by decide)

/-- C4 counterexample: the warning fires, the run continues into the AI
phase (one backend call) which yields zero comments, and then NO review
of either kind is posted — the claimed unconditional approval on zero
comments fails. -/
theorem zeroComments_no_approval_cex :
    (mainAfterDiff cfgRev diffUtilPy "" oracleEmpty none).reviewAICalls = 1 ∧
    (mainAfterDiff cfgRev diffUtilPy "" oracleEmpty none).issueComments =
      [testWarningBody ["src/util.py"]] ∧
    (mainAfterDiff cfgRev diffUtilPy "" oracleEmpty none).reviews = [] :=
  ⟨rfl, rfl, rfl⟩

/-- C4 (amended): when the AI phase runs and returns comments, a lone
COMMENT review is posted and no approval; on zero comments an APPROVE
(plain or exemption-annotated) is posted only when the missing-tests
warning did not fire; after a fired warning, zero comments post
nothing. -/
theorem aiPhase_outcome (cfg : Config) (d : List DiffFile) (desc : String)
    (oracle : Nat → AIResult) (ex : Option String) (k : Nat)
    (cmts : List ReviewComment)
    (hav : cfg.avaliarTestPr = false)
    (hres : analyzeCode oracle (filterExcluded cfg.excludeInput d) =
      (k, Except.ok cmts)) :
    (cmts ≠ [] →
      (mainAfterDiff cfg d desc oracle ex).reviews =
        [{ comments := cmts, event := "COMMENT", body := none }]) ∧
    (cmts = [] →
      warnCond (analyzeTests d) (getTestExemptionDetails desc ex).1 = false →
      (mainAfterDiff cfg d desc oracle ex).reviews =
        [{ comments := [], event := "APPROVE",
           body := some (approvalBodyFor (analyzeTests d)
             (getTestExemptionDetails desc ex)) }]) ∧
    (cmts = [] →
      warnCond (analyzeTests d) (getTestExemptionDetails desc ex).1 = true →
      (mainAfterDiff cfg d desc oracle ex).reviews = []) := by
  refine ⟨?_, ?_, ?_⟩
  · intro hne
    have hie : cmts.isEmpty = false := by
      cases cmts with
      | nil => exact absurd rfl hne
      | cons a l => rfl
    simp [mainAfterDiff, hav, hres, hie]
  · rintro rfl hwf
    simp [mainAfterDiff, hav, hres, hwf]
  · rintro rfl hwt
    simp [mainAfterDiff, hav, hres, hwt]

/-- Witness for C4 (amended): one review comment at line 12. -/
theorem aiPhase_outcome_wit :
    (cmtsOne ≠ [] →
      (mainAfterDiff cfgRev diffUtilTs "" oracleOne none).reviews =
        [{ comments := cmtsOne, event := "COMMENT", body := none }]) ∧
    (cmtsOne = [] →
      warnCond (analyzeTests diffUtilTs) (getTestExemptionDetails "" none).1 = false →
      (mainAfterDiff cfgRev diffUtilTs "" oracleOne none).reviews =
        [{ comments := [], event := "APPROVE",
           body := some (approvalBodyFor (analyzeTests diffUtilTs)
             (getTestExemptionDetails "" none)) }]) ∧
    (cmtsOne = [] →
      warnCond (analyzeTests diffUtilTs) (getTestExemptionDetails "" none).1 = true →
      (mainAfterDiff cfgRev diffUtilTs "" oracleOne none).reviews = []) :=
  aiPhase_outcome cfgRev diffUtilTs "" oracleOne none 1 cmtsOne rfl rfl

/-- C6: with evaluate-tests-only set, some changed file requiring tests,
no test file in the diff and no exemption keyword, the run posts exactly
the warning comment (plus the optional webhook), produces no review,
never attempts any AI backend call, and stops cleanly. -/
theorem testsOnly_warn_stops (cfg : Config) (d : List DiffFile)
    (desc : String) (oracle : Nat → AIResult) (ex : Option String)
    (hav : cfg.avaliarTestPr = true)
    (haff : (analyzeTests d).affectedFiles ≠ [])
    (hnt : (analyzeTests d).hasTests = false)
    (hex : hasTestExemption desc = false) :
    mainAfterDiff cfg d desc oracle ex =
      { issueComments := [testWarningBody (analyzeTests d).missingTests],
        webhookSent := cfg.webhookUrl != "",
        reviews := [], reviewAICalls := 0, exemptionAICall := false,
        aborted := false } := by
  have hed : getTestExemptionDetails desc ex = (false, "") := by
    unfold getTestExemptionDetails
    rw [hex]
    simp
  have hwarn : warnCond (analyzeTests d) (getTestExemptionDetails desc ex).1 = true := by
    rw [hed]
    unfold warnCond
    rw [hnt]
    simp [List.isEmpty_iff, haff]
  simp [mainAfterDiff, hav, hwarn, hex]

/-- Witness for C6 on the diff changing only `src/util.ts`. -/
theorem testsOnly_warn_stops_wit :
    mainAfterDiff cfgTestsOnly diffUtilTs "" oracleRaise none =
      { issueComments := [testWarningBody (analyzeTests diffUtilTs).missingTests],
        webhookSent := cfgTestsOnly.webhookUrl != "",
        reviews := [], reviewAICalls := 0, exemptionAICall := false,
        aborted := false } :=
  testsOnly_warn_stops cfgTestsOnly diffUtilTs "" oracleRaise none rfl
    (by decide) (by decide) (by decide)

/-- C8: a comment event is processed exactly when it sits on a pull
request and its trimmed body starts with `/code_review`; any event the
gate rejects makes the whole run exit cleanly with no side effects and
no error. -/
theorem eventGate_spec (cfg : Config) (e : EventData)
    (pd? : Option (List DiffFile)) (description : String)
    (oracle : Nat → AIResult) (exemptResp : Option String) :
    (∀ body, e.commentBody? = some body →
      (shouldProcessPR e = true ↔
        eventIssuePR e = true ∧
          strStartsWith (jsTrim body) "/code_review" = true)) ∧
    (shouldProcessPR e = false →
      mainRun cfg e pd? description oracle exemptResp = emptyTrace) := by
  constructor
  · intro body hb
    unfold shouldProcessPR
    rw [hb]
    simp [isCodeReviewCommand, Bool.and_eq_true]
  · intro hgate
    unfold mainRun
    rw [hgate]
    simp

/-- C9: as soon as one changed file's destination path contains `test`
case-insensitively, `hasTests` is true and the missing-tests warning is
never posted in that run. -/
theorem test_substring_no_warning (cfg : Config) (d : List DiffFile)
    (desc : String) (oracle : Nat → AIResult) (ex : Option String)
    (f : DiffFile) (p : String)
    (hf : f ∈ d) (hto : f.to? = some p)
    (hp : strContains (strToLower p) "test" = true) :
    (analyzeTests d).hasTests = true ∧
    (mainAfterDiff cfg d desc oracle ex).issueComments = [] := by
  have hpne : p ≠ "" := by
    rintro rfl
    revert hp
    decide
  have hpred : (jsTruthyTo f && isTestFilePath (toOrEmpty f)) = true := by
    have hto' : toOrEmpty f = p := by
      unfold toOrEmpty
      rw [hto]
      rfl
    unfold jsTruthyTo
    rw [hto, hto']
    unfold isTestFilePath
    rw [hp]
    simp [hpne]
  have hmem : toOrEmpty f ∈
      (d.filter (fun g => jsTruthyTo g && isTestFilePath (toOrEmpty g))).map toOrEmpty :=
    List.mem_map_of_mem _ (List.mem_filter.mpr ⟨hf, hpred⟩)
  have hHT : (analyzeTests d).hasTests = true := by
    show (!((d.filter (fun g => jsTruthyTo g && isTestFilePath (toOrEmpty g))).map toOrEmpty).isEmpty) = true
    have hne := List.ne_nil_of_mem hmem
    simp [List.isEmpty_iff, hne]
  have hwarn : ∀ b, warnCond (analyzeTests d) b = false := by
    intro b
    unfold warnCond
    rw [hHT]
    simp
  refine ⟨hHT, ?_⟩
  by_cases hav : cfg.avaliarTestPr = true
  · simp [mainAfterDiff, hwarn, hav]
  · have hav' : cfg.avaliarTestPr = false := by
      revert hav
      cases cfg.avaliarTestPr <;> simp
    rcases hres : analyzeCode oracle (filterExcluded cfg.excludeInput d) with ⟨k, res⟩
    cases res with
    | error e =>
      cases e
      simp [mainAfterDiff, hwarn, hav', hres]
    | ok cmts =>
      cases cmts with
      | nil => simp [mainAfterDiff, hwarn, hav', hres]
      | cons a l => simp [mainAfterDiff, hwarn, hav', hres]

/-- Witness for C9 on `contest/utils.py`, a non-test file that is itself
classified as needing tests. -/
theorem test_substring_no_warning_wit :
    needsTests "contest/utils.py" = true ∧
    ((analyzeTests diffContest).hasTests = true ∧
      (mainAfterDiff cfgTestsOnly diffContest "" oracleRaise none).issueComments = []) :=
  ⟨by decide,
    test_substring_no_warning cfgTestsOnly diffContest "" oracleRaise none
      ⟨some "contest/utils.py", [⟨"h"⟩]⟩ "contest/utils.py" (by decide) rfl
      (by decide)⟩

end CodeReviewer
